import Mathlib

/-!
Verification of the inventory management module
(`src/cleaned_inventory_system.py`).

The program keeps a single mutable mapping `stock_data` from item keys to
quantities, with operations `add_item`, `remove_item`, `get_qty`,
`check_low_items`, and persistence `load_data` / `save_data` over a JSON
file.  We embed it shallowly:

* A Python dict is modelled as an insertion-ordered association list
  (`Store`); `dictGet` / `dictSet` / `dictDel` mirror `d.get`, `d[k] = v`
  and `del d[k]` on well-formed (duplicate-free) states.
* Item keys are strings or integers (`Key`), the two key types the program
  actually passes (`add_item("apple", ...)`, `add_item(123, ...)`), with
  Python truthiness (`Key.truthy`).
* Quantities stored are integers; the quantity *argument* of `add_item` is
  a `PyVal` (int or str) so that the `TypeError` raised by
  `stock_data.get(item, 0) + qty` on a non-numeric quantity is represented
  (`pyAdd` returning `none`).  A raised-and-propagated exception is recorded
  in the `raised` field of the operation's result together with the
  (unchanged) state at the point of the raise.
* The file system is modelled by `FileState`: the path is missing, holds
  content that fails JSON parsing (`FileNotFoundError` / `JSONDecodeError`
  branches of `load_data`), or holds a parsed JSON object document.
  `save_data` returns the document it writes: `json.dumps` renders each key
  with `str` (integer keys coerce to their decimal form) and emits the
  pairs in dict order, so a document is an ordered list of string-keyed
  pairs which may contain duplicate keys; `json.loads` rebuilds a dict from
  it by sequential insertion (`docToStore`), so a later duplicate wins.
-/

namespace Inventory

/-- An item key: the program uses string keys and (in the demo) an integer
key `123`.  Mirrors the Python values used as dict keys. -/
inductive Key where
  | str (s : String)
  | int (n : Int)
deriving DecidableEq, Repr

/-- Python truthiness of a key: `""` and `0` are falsy, everything else
truthy.  Used by the `if not item: return` guard of `add_item`. -/
def Key.truthy : Key → Bool
  | .str s => !s.isEmpty
  | .int n => decide (n ≠ 0)

/-- Python `str(key)`, as used by `json.dumps` to render a dict key. -/
def Key.jsonKey : Key → String
  | .str s => s
  | .int n => toString n

/-- A Python value passed as the `qty` argument of `add_item`: an integer
or (as in the demo call `add_item(123, "ten")`) a string. -/
inductive PyVal where
  | int (n : Int)
  | str (s : String)
deriving DecidableEq, Repr

/-- Python `str(qty)` as interpolated into the log record. -/
def PyVal.render : PyVal → String
  | .int n => toString n
  | .str s => s

/-- Python `str(item)` as interpolated into the log record. -/
def Key.render : Key → String
  | .str s => s
  | .int n => toString n

/-- The inventory store `stock_data`: a Python dict modelled as an
insertion-ordered association list from keys to integer quantities. -/
abbrev Store : Type := List (Key × Int)

/-- The keys of the store, in iteration (insertion) order. -/
def keys (s : Store) : List Key := s.map Prod.fst

/-- `stock_data.get(item)` as an option: the first (on well-formed states,
only) entry for the key. -/
def dictGet : Store → Key → Option Int
  | [], _ => none
  | p :: rest, k => if p.1 = k then some p.2 else dictGet rest k

/-- `stock_data[item] = v`: replace the entry in place if the key is
present (dicts keep the original position), otherwise append it. -/
def dictSet : Store → Key → Int → Store
  | [], k, v => [(k, v)]
  | p :: rest, k, v => if p.1 = k then (k, v) :: rest else p :: dictSet rest k v

/-- `del stock_data[item]`: drop the entry for the key. -/
def dictDel : Store → Key → Store
  | [], _ => []
  | p :: rest, k => if p.1 = k then dictDel rest k else p :: dictDel rest k

/-- `get_qty(item)`: `stock_data.get(item, 0)`. -/
def get_qty (s : Store) (item : Key) : Int :=
  (dictGet s item).getD 0

/-- Python addition `n + qty` where `n` is the stored integer quantity:
defined for an integer `qty`, raises `TypeError` (modelled as `none`) for
a string `qty`. -/
def pyAdd (n : Int) : PyVal → Option Int
  | .int m => some (n + m)
  | .str _ => none

/-- Result of a call to `add_item`: whether an exception propagated, plus
the store and the caller's log list as they are when the call ends. -/
structure AddResult where
  raised : Bool
  store : Store
  logs : List String
deriving DecidableEq, Repr

/-- `add_item(item, qty, logs)`.  Mirrors the source line by line: a falsy
`item` returns before touching the store or the log; otherwise
`stock_data[item] = stock_data.get(item, 0) + qty` is executed (a
`TypeError` from the addition propagates before any mutation) and then one
record `f"{now}: Added {qty} of {item}"` is appended to `logs`.  `now`
stands for `datetime.now()`. -/
def add_item (s : Store) (item : Key) (qty : PyVal) (logs : List String) (now : String) : AddResult :=
  if item.truthy = false then ⟨false, s, logs⟩
  else
    match pyAdd (get_qty s item) qty with
    | none => ⟨true, s, logs⟩
    | some v =>
        ⟨false, dictSet s item v,
          logs ++ [now ++ ": Added " ++ qty.render ++ " of " ++ item.render]⟩

/-- `remove_item(item, qty)`: `stock_data[item] -= qty`, then delete the
entry if the updated quantity is `<= 0`; a `KeyError` (absent key) is
caught and ignored. -/
def remove_item (s : Store) (item : Key) (qty : Int) : Store :=
  match dictGet s item with
  | none => s
  | some n =>
      let s1 := dictSet s item (n - qty)
      if n - qty ≤ 0 then dictDel s1 item else s1

/-- The loop body of `check_low_items`: `result.append(item)` for each
entry with `qty < threshold`, in iteration order. -/
def lowLoop : Store → Int → List Key → List Key
  | [], _, acc => acc
  | p :: rest, t, acc =>
      if p.2 < t then lowLoop rest t (acc ++ [p.1]) else lowLoop rest t acc

/-- `check_low_items(threshold=5)`. -/
def check_low_items (s : Store) (threshold : Int := 5) : List Key :=
  lowLoop s threshold []

/-- What is found at the file path when `load_data` runs: no file
(`FileNotFoundError`), content that is not valid JSON (`JSONDecodeError`,
carrying the decoder's message), or content parsing to a JSON object,
given as its ordered key-value pairs (string keys; duplicates possible,
since `json.dumps` of a dict holding both `1` and `"1"` emits the key
`"1"` twice). -/
inductive FileState where
  | missing
  | invalid (err : String)
  | valid (doc : List (String × Int))

/-- `json.loads` builds a dict from the document's pairs by sequential
insertion, so a later duplicate key overwrites an earlier one. -/
def insertAll : Store → List (String × Int) → Store
  | acc, [] => acc
  | acc, p :: rest => insertAll (dictSet acc (Key.str p.1) p.2) rest

/-- The store produced by parsing a JSON object document. -/
def docToStore (doc : List (String × Int)) : Store :=
  insertAll [] doc

/-- `load_data(file)`: replace the store with the parsed file content.
Returns the new store together with the lines printed.  A missing file
resets the store to empty silently; undecodable content prints the
diagnostic `f"Error decoding JSON data in {file}: {e}"` — and, the
assignment having never executed, leaves the store at its prior value;
a parsed document replaces the store wholesale.  No branch raises. -/
def load_data (file : String) (fs : FileState) (s : Store) : Store × List String :=
  match fs with
  | .missing => ([], [])
  | .invalid err => (s, ["Error decoding JSON data in " ++ file ++ ": " ++ err])
  | .valid doc => (docToStore doc, [])

/-- `save_data(file)`: `json.dumps(stock_data)` — the document written is
the store's pairs in iteration order with each key rendered by `str`. -/
def save_data (s : Store) : List (String × Int) :=
  s.map (fun p => (p.1.jsonKey, p.2))

/-- The store's pairs with every key coerced to its string form, as the
spec's round-trip clause describes them. -/
def coercePairs (s : Store) : Store :=
  s.map (fun p => (Key.str p.1.jsonKey, p.2))

/-! ### Dictionary lemmas -/

theorem dictGet_dictSet_self (s : Store) (k : Key) (v : Int) :
    dictGet (dictSet s k v) k = some v := by
  induction s with
  | nil => simp [dictSet, dictGet]
  | cons p rest ih =>
      by_cases h : p.1 = k
      · simp [dictSet, dictGet, h]
      · simp [dictSet, dictGet, h, ih]

theorem mem_keys_dictSet (s : Store) (k : Key) (v : Int) (a : Key)
    (h : a ∈ keys s) : a ∈ keys (dictSet s k v) := by
  induction s with
  | nil => simp [keys] at h
  | cons p rest ih =>
      simp only [keys, List.map_cons, List.mem_cons] at h
      by_cases hp : p.1 = k
      · rw [dictSet, if_pos hp]
        simp only [keys, List.map_cons, List.mem_cons]
        rcases h with h | h
        · exact Or.inl (h.trans hp)
        · exact Or.inr h
      · rw [dictSet, if_neg hp]
        simp only [keys, List.map_cons, List.mem_cons]
        rcases h with h | h
        · exact Or.inl h
        · exact Or.inr (ih (by simpa [keys] using h))

theorem dictGet_dictDel_self (s : Store) (k : Key) :
    dictGet (dictDel s k) k = none := by
  induction s with
  | nil => simp [dictDel, dictGet]
  | cons p rest ih =>
      by_cases h : p.1 = k
      · simp [dictDel, h, ih]
      · simp [dictDel, dictGet, h, ih]

theorem not_mem_keys_dictDel (s : Store) (k : Key) :
    k ∉ keys (dictDel s k) := by
  induction s with
  | nil => simp [dictDel, keys]
  | cons p rest ih =>
      by_cases h : p.1 = k
      · simp [dictDel, h, ih]
      · simp [dictDel, keys, h] at ih ⊢
        exact ⟨fun e => h e.symm, ih⟩

theorem dictSet_eq_append (s : Store) (k : Key) (v : Int) (h : k ∉ keys s) :
    dictSet s k v = s ++ [(k, v)] := by
  induction s with
  | nil => rfl
  | cons p rest ih =>
      simp [keys] at h
      push_neg at h
      rw [dictSet, if_neg (fun e => h.1 e.symm), ih (by simpa [keys] using h.2)]
      rfl

theorem lowLoop_eq (s : Store) (t : Int) :
    ∀ acc, lowLoop s t acc = acc ++ (s.filter (fun p => decide (p.2 < t))).map Prod.fst := by
  induction s with
  | nil => intro acc; simp [lowLoop]
  | cons p rest ih =>
      intro acc
      by_cases h : p.2 < t
      · simp [lowLoop, h, List.filter_cons, ih]
      · simp [lowLoop, h, List.filter_cons, ih]

theorem mem_keys_of_mem_check_low (s : Store) (t : Int) (i : Key)
    (h : i ∈ check_low_items s t) : i ∈ keys s := by
  rw [check_low_items, lowLoop_eq] at h
  simp only [List.nil_append, List.mem_map, List.mem_filter] at h
  obtain ⟨p, ⟨hp, _⟩, rfl⟩ := h
  exact List.mem_map.mpr ⟨p, hp, rfl⟩

theorem insertAll_eq :
    ∀ (doc : List (String × Int)) (acc : Store),
      (doc.map (fun p => Key.str p.1)).Nodup →
      (∀ p ∈ doc, Key.str p.1 ∉ keys acc) →
      insertAll acc doc = acc ++ doc.map (fun p => (Key.str p.1, p.2)) := by
  intro doc
  induction doc with
  | nil => intro acc _ _; simp [insertAll]
  | cons p rest ih =>
      intro acc hnd hdisj
      have hp : Key.str p.1 ∉ keys acc := hdisj p (List.mem_cons_self p rest)
      rw [insertAll, dictSet_eq_append acc (Key.str p.1) p.2 hp]
      rw [List.map_cons, List.nodup_cons] at hnd
      have hdisj2 : ∀ q ∈ rest, Key.str q.1 ∉ keys (acc ++ [(Key.str p.1, p.2)]) := by
        intro q hq
        simp only [keys, List.map_append, List.mem_append, List.map_cons, List.map_nil,
          List.mem_cons, List.not_mem_nil, or_false]
        push_neg
        refine ⟨fun hin => hdisj q (List.mem_cons_of_mem p hq) hin, fun e => hnd.1 ?_⟩
        rw [← e]
        exact List.mem_map.mpr ⟨q, hq, rfl⟩
      rw [ih _ hnd.2 hdisj2]
      simp

/-! ### Claim theorems -/

/-- C1, counterexample: the claim says that loading a path whose content
fails to parse leaves the store as an empty mapping.  It does not: with
prior store `{"a": 1}` and undecodable file content, `load_data` prints
the diagnostic but the assignment to `stock_data` never runs, so the
store is still `{"a": 1}`, which is not empty. -/
theorem load_invalid_keeps_prior_store_cex :
    (load_data "inventory.json" (.invalid "Expecting value: line 1 column 1 (char 0)")
        [(Key.str "a", 1)]).1 = [(Key.str "a", 1)] ∧
    ([(Key.str "a", 1)] : Store) ≠ ([] : Store) :=
  ⟨rfl, by decide⟩

/-- C1, amended: for every store state, loading a path whose file exists
but whose content fails to parse emits a diagnostic and leaves the store
at its prior value (unchanged, not reset to empty), without raising. -/
theorem load_invalid_preserves_store_and_diagnoses :
    ∀ (file err : String) (s : Store),
      (load_data file (.invalid err) s).1 = s ∧
      (load_data file (.invalid err) s).2 ≠ [] := by
  intro file err s
  exact ⟨rfl, by simp [load_data]⟩

/-- C5: removing an item that is absent from the store is a silent
no-op — the store is returned unchanged, no entry is created, and no
exception escapes (the `KeyError` is caught). -/
theorem remove_absent_noop (s : Store) (i : Key) (q : Int)
    (h : dictGet s i = none) : remove_item s i q = s := by
  simp [remove_item, h]

/-- C5 witness. -/
theorem remove_absent_noop_witness :
    dictGet [(Key.str "apple", 7)] (Key.str "orange") = none ∧
    remove_item [(Key.str "apple", 7)] (Key.str "orange") 1 = [(Key.str "apple", 7)] :=
  ⟨by decide, remove_absent_noop [(Key.str "apple", 7)] (Key.str "orange") 1 (by decide)⟩

/-- C6: calling `add_item` with a falsy item key returns early, leaving
the store and the caller's log list exactly as they were (and no
exception); in particular the quantity recorded under `""` keeps its
prior value. -/
theorem add_falsy_noop (s : Store) (i : Key) (q : PyVal) (l : List String)
    (now : String) (h : i.truthy = false) :
    add_item s i q l now = ⟨false, s, l⟩ ∧
    get_qty (add_item s i q l now).store (Key.str "") = get_qty s (Key.str "") := by
  have h1 : add_item s i q l now = ⟨false, s, l⟩ := by simp [add_item, h]
  exact ⟨h1, by rw [h1]⟩

/-- C6 witness: adding under the empty-string key. -/
theorem add_falsy_noop_witness :
    Key.truthy (Key.str "") = false ∧
    (add_item [(Key.str "", 4)] (Key.str "") (.int 3) ["old"] "t"
        = ⟨false, [(Key.str "", 4)], ["old"]⟩ ∧
      get_qty (add_item [(Key.str "", 4)] (Key.str "") (.int 3) ["old"] "t").store (Key.str "")
        = get_qty [(Key.str "", 4)] (Key.str "")) :=
  ⟨by decide, add_falsy_noop [(Key.str "", 4)] (Key.str "") (.int 3) ["old"] "t" (by decide)⟩

/-- C8: `check_low_items` returns exactly the keys whose quantity is
strictly below the threshold, in the store's insertion order, and with
the default threshold 5 the store `{a: 10, b: 3, c: 5}` yields exactly
`["b"]` (the boundary item `c` excluded). -/
theorem check_low_items_spec :
    (∀ (s : Store) (t : Int),
      check_low_items s t = (s.filter (fun p => decide (p.2 < t))).map Prod.fst) ∧
    check_low_items [(Key.str "a", 10), (Key.str "b", 3), (Key.str "c", 5)] = [Key.str "b"] := by
  constructor
  · intro s t
    rw [check_low_items, lowLoop_eq]
    simp
  · decide

/-- C9: loading from a path that does not exist results in an empty
store without raising (the `FileNotFoundError` is caught), so every
subsequent `get_qty` returns 0. -/
theorem load_missing_empties_store :
    ∀ (file : String) (s : Store),
      (load_data file .missing s).1 = [] ∧
      ∀ x, get_qty (load_data file .missing s).1 x = 0 := by
  intro file s
  exact ⟨rfl, fun x => rfl⟩

/-- C10: when the item is truthy but adding the quantity to the item's
prior quantity (default 0) fails — e.g. a non-numeric string quantity —
`add_item` raises at the point of the addition, before any mutation:
the store and the caller's log list are exactly as they were. -/
theorem add_failing_qty_raises_without_mutation (s : Store) (i : Key) (q : PyVal)
    (l : List String) (now : String) (ht : i.truthy = true)
    (hf : pyAdd (get_qty s i) q = none) :
    add_item s i q l now = ⟨true, s, l⟩ := by
  simp [add_item, ht, hf]

/-- C10 witness: the demo's `add_item(123, "ten")`. -/
theorem add_failing_qty_raises_without_mutation_witness :
    Key.truthy (Key.int 123) = true ∧
    pyAdd (get_qty [(Key.str "apple", 10)] (Key.int 123)) (.str "ten") = none ∧
    add_item [(Key.str "apple", 10)] (Key.int 123) (.str "ten") ["old"] "t"
      = ⟨true, [(Key.str "apple", 10)], ["old"]⟩ :=
  ⟨by decide, by decide,
    add_failing_qty_raises_without_mutation [(Key.str "apple", 10)] (Key.int 123)
      (.str "ten") ["old"] "t" (by decide) (by decide)⟩

/-- C3: removing `q ≥ n` units of an item present with quantity `n`
deletes its entry: `get_qty` returns 0, the item is absent from
`check_low_items` at every threshold and from iteration; and after any
`remove_item` call, the entry it concerned never persists with a
quantity `≤ 0` (the store may hold other nonpositive entries only
because `add_item` created them — `remove_item` is the operation bound
by this invariant). -/
theorem remove_ge_deletes_entry (s : Store) (i : Key) (n q : Int)
    (h1 : dictGet s i = some n) (h2 : n ≤ q) :
    dictGet (remove_item s i q) i = none ∧
    get_qty (remove_item s i q) i = 0 ∧
    (∀ t, i ∉ check_low_items (remove_item s i q) t) ∧
    i ∉ keys (remove_item s i q) ∧
    ∀ (s2 : Store) (i2 : Key) (q2 m : Int),
      dictGet (remove_item s2 i2 q2) i2 = some m → 0 < m := by
  have hle : n - q ≤ 0 := by omega
  have hr : remove_item s i q = dictDel (dictSet s i (n - q)) i := by
    simp [remove_item, h1, hle]
  have hget : dictGet (remove_item s i q) i = none := by
    rw [hr]; exact dictGet_dictDel_self _ _
  have hkeys : i ∉ keys (remove_item s i q) := by
    rw [hr]; exact not_mem_keys_dictDel _ _
  refine ⟨hget, by simp [get_qty, hget], fun t hm => hkeys (mem_keys_of_mem_check_low _ t i hm), hkeys, ?_⟩
  intro s2 i2 q2 m hm
  rcases hg : dictGet s2 i2 with _ | n2
  · rw [remove_item, hg] at hm
    rw [hg] at hm
    exact absurd hm (by simp)
  · rw [remove_item, hg] at hm
    by_cases hle2 : n2 - q2 ≤ 0
    · simp only [hle2, if_pos] at hm
      rw [dictGet_dictDel_self] at hm
      exact absurd hm (by simp)
    · simp only [hle2, if_neg, not_false_iff] at hm
      rw [dictGet_dictSet_self] at hm
      have : m = n2 - q2 := by injection hm.symm
      omega

/-- C3 witness. -/
theorem remove_ge_deletes_entry_witness :
    dictGet [(Key.str "apple", 7)] (Key.str "apple") = some 7 ∧
    (7 : Int) ≤ 7 ∧
    dictGet (remove_item [(Key.str "apple", 7)] (Key.str "apple") 7) (Key.str "apple") = none ∧
    get_qty (remove_item [(Key.str "apple", 7)] (Key.str "apple") 7) (Key.str "apple") = 0 ∧
    Key.str "apple" ∉ keys (remove_item [(Key.str "apple", 7)] (Key.str "apple") 7) :=
  ⟨by decide, by decide,
    (remove_ge_deletes_entry [(Key.str "apple", 7)] (Key.str "apple") 7 7 (by decide) (by decide)).1,
    (remove_ge_deletes_entry [(Key.str "apple", 7)] (Key.str "apple") 7 7 (by decide) (by decide)).2.1,
    (remove_ge_deletes_entry [(Key.str "apple", 7)] (Key.str "apple") 7 7 (by decide) (by decide)).2.2.2.1⟩

/-- C4: starting from a store where the truthy item `i` is absent, two
successive `add_item` calls with integer quantities `q1` and `q2` leave
`get_qty i = q1 + q2` (and the first call does not raise). -/
theorem add_add_accumulates (s : Store) (i : Key) (q1 q2 : Int)
    (l1 l2 : List String) (t1 t2 : String)
    (ht : i.truthy = true) (habs : dictGet s i = none) :
    (add_item s i (.int q1) l1 t1).raised = false ∧
    get_qty (add_item (add_item s i (.int q1) l1 t1).store i (.int q2) l2 t2).store i
      = q1 + q2 := by
  have hq0 : get_qty s i = 0 := by simp [get_qty, habs]
  have hstore1 : (add_item s i (.int q1) l1 t1).store = dictSet s i (get_qty s i + q1) := by
    simp [add_item, ht, pyAdd]
  have hraised : (add_item s i (.int q1) l1 t1).raised = false := by
    simp [add_item, ht, pyAdd]
  refine ⟨hraised, ?_⟩
  have hget1 : get_qty (add_item s i (.int q1) l1 t1).store i = q1 := by
    rw [hstore1]
    simp [get_qty, dictGet_dictSet_self, habs]
  have hstore2 :
      (add_item (add_item s i (.int q1) l1 t1).store i (.int q2) l2 t2).store
        = dictSet (add_item s i (.int q1) l1 t1).store i
            (get_qty (add_item s i (.int q1) l1 t1).store i + q2) := by
    simp [add_item, ht, pyAdd]
  rw [hstore2, hget1]
  simp [get_qty, dictGet_dictSet_self]

/-- C4 witness: the demo's `add("apple", 10)` run twice with 10 and 5. -/
theorem add_add_accumulates_witness :
    Key.truthy (Key.str "apple") = true ∧
    dictGet ([] : Store) (Key.str "apple") = none ∧
    ((add_item [] (Key.str "apple") (.int 10) [] "t1").raised = false ∧
      get_qty (add_item (add_item [] (Key.str "apple") (.int 10) [] "t1").store
          (Key.str "apple") (.int 5) [] "t2").store (Key.str "apple") = 10 + 5) :=
  ⟨by decide, by decide,
    add_add_accumulates [] (Key.str "apple") 10 5 [] [] "t1" "t2" (by decide) (by decide)⟩

/-- C7: adding an integer quantity to a truthy item leaves the item
present with its prior quantity plus the addend — even when that sum is
zero or negative; `add_item` never deletes any entry (every key of the
store before any `add_item` call is still a key afterwards); and on a
fresh store, `add("banana", -2)` yields `get_qty "banana" = -2`. -/
theorem add_allows_nonpositive_and_never_deletes (s : Store) (i : Key) (n : Int)
    (l : List String) (now : String) (ht : i.truthy = true) :
    dictGet (add_item s i (.int n) l now).store i = some (get_qty s i + n) ∧
    (∀ (s2 : Store) (i2 : Key) (q : PyVal) (l2 : List String) (t2 : String) (k : Key),
        k ∈ keys s2 → k ∈ keys (add_item s2 i2 q l2 t2).store) ∧
    get_qty (add_item [] (Key.str "banana") (.int (-2)) [] "t").store (Key.str "banana") = -2 := by
  refine ⟨?_, ?_, by decide⟩
  · have hstore : (add_item s i (.int n) l now).store = dictSet s i (get_qty s i + n) := by
      simp [add_item, ht, pyAdd]
    rw [hstore]
    exact dictGet_dictSet_self _ _ _
  · intro s2 i2 q l2 t2 k hk
    rw [add_item]
    split
    · exact hk
    · split
      · exact hk
      · exact mem_keys_dictSet _ _ _ _ hk

/-- C7 witness. -/
theorem add_allows_nonpositive_and_never_deletes_witness :
    Key.truthy (Key.str "apple") = true ∧
    dictGet (add_item [(Key.str "x", 3)] (Key.str "apple") (.int 2) [] "t").store
        (Key.str "apple")
      = some (get_qty [(Key.str "x", 3)] (Key.str "apple") + 2) ∧
    get_qty (add_item [] (Key.str "banana") (.int (-2)) [] "t").store (Key.str "banana") = -2 :=
  ⟨by decide,
    (add_allows_nonpositive_and_never_deletes [(Key.str "x", 3)] (Key.str "apple") 2 [] "t"
      (by decide)).1,
    (add_allows_nonpositive_and_never_deletes [(Key.str "x", 3)] (Key.str "apple") 2 [] "t"
      (by decide)).2.2⟩

/-- C2, counterexample: with store `{1: 5, "1": 7}` (two distinct keys
whose string forms collide), `json.dumps` writes the key `"1"` twice and
`json.loads` keeps the last pair, so the pair `("1", 5)` — present in
the store's pairs after coercion of the key 1 to `"1"` — is absent from
the reloaded store: save-then-load does not reproduce the set of
item-to-quantity pairs even modulo key coercion. -/
theorem save_load_collision_cex :
    (Key.str "1", (5 : Int)) ∈ coercePairs [(Key.int 1, 5), (Key.str "1", 7)] ∧
    (Key.str "1", (5 : Int)) ∉ (load_data "inventory.json"
        (.valid (save_data [(Key.int 1, 5), (Key.str "1", 7)]))
        [(Key.int 1, 5), (Key.str "1", 7)]).1 :=
  ⟨by decide, by decide⟩

/-- C2, amended: whenever the string forms of the store's keys are
pairwise distinct (no two keys coerce to the same string — in particular
whenever all keys are already distinct strings), `save_data` followed by
`load_data` on the same path reproduces exactly the store's
item-to-quantity pairs with each key coerced to its string form. -/
theorem save_load_roundtrip_of_nodup_keys (file : String) (s s0 : Store)
    (h : (s.map (fun p => p.1.jsonKey)).Nodup) :
    (load_data file (.valid (save_data s)) s0).1 = coercePairs s := by
  have hmm : ((save_data s).map (fun p => Key.str p.1))
      = (s.map (fun p => p.1.jsonKey)).map Key.str := by
    rw [save_data, List.map_map, List.map_map]
    rfl
  have hnd : ((save_data s).map (fun p => Key.str p.1)).Nodup := by
    rw [hmm]
    exact h.map (fun a b e => Key.str.inj e)
  have hdisj : ∀ p ∈ save_data s, Key.str p.1 ∉ keys ([] : Store) := by
    intro p _ hmem
    simp [keys] at hmem
  show docToStore (save_data s) = coercePairs s
  rw [docToStore, insertAll_eq (save_data s) [] hnd hdisj, List.nil_append,
    save_data, List.map_map]
  rfl

/-- C2 witness: a store with an integer key and a string key whose
string forms differ. -/
theorem save_load_roundtrip_of_nodup_keys_witness :
    (([(Key.int 1, 5), (Key.str "a", 7)] : Store).map (fun p => p.1.jsonKey)).Nodup ∧
    (load_data "inventory.json"
        (.valid (save_data [(Key.int 1, 5), (Key.str "a", 7)])) []).1
      = coercePairs [(Key.int 1, 5), (Key.str "a", 7)] :=
  ⟨by decide,
    save_load_roundtrip_of_nodup_keys "inventory.json" [(Key.int 1, 5), (Key.str "a", 7)] []
      (by decide)⟩

end Inventory
